import Mathlib

/-!
Shallow embedding of the sufc_scraper repository (Python) for verifying its
natural-language specification.  The embedding covers:

* `utils/season_utils.py` — `parse_season` / `format_season`, including a model
  of Python's decimal string rendering (f-strings), `str.split("-")` and `int()`.
* `models/match.py` and `storage/database.py` — the `Match` record, the SQLite
  `matches` table (rows after Python-side serialization), `insert_match`,
  `upsert_match` (the `ON CONFLICT ... DO UPDATE` merge) and the read queries.
  The store is modelled as a list of rows in insertion (rowid) order; the
  `created_at`/`updated_at` timestamp columns are not part of any queried
  observable and are omitted.
* `main.py` — the `ScrapeController` season/range scraping logic.  A scraper's
  network-dependent `scrape_season` method is abstracted as a function field
  `scrape : Int → List Match`; the list of source names whose `scrape_season`
  was called is returned alongside the result so that "adapter X was never
  invoked" is an observable fact.
* `scrapers/football_data.py` — `FootballDataScraper._parse_match_row`
  (date parsing via `strptime` is abstracted as a function parameter), and the
  goal-orientation step of `scrapers/transfermarkt.py`'s `_parse_match_row`.
-/

namespace Sufc

/-! ## Python string/number primitives used by `season_utils.py` -/

/-- Value of a decimal digit character, as Python's `int()` computes it. -/
def digitVal (c : Char) : Nat := c.toNat - 48

/-- Model of Python `int(s)` restricted to an all-digit string: `None` when the
string is empty or contains a non-digit character. -/
def parseNatDigits (cs : List Char) : Option Nat :=
  if !cs.isEmpty && cs.all Char.isDigit then
    some (cs.foldl (fun a c => a * 10 + digitVal c) 0)
  else
    none

/-- Model of Python `int(s)` on a string: optional sign followed by digits. -/
def pyIntChars (cs : List Char) : Option Int :=
  match cs with
  | [] => none
  | c :: rest =>
    if c = '-' then (parseNatDigits rest).map (fun n => -(n : Int))
    else if c = '+' then (parseNatDigits rest).map (fun n => (n : Int))
    else (parseNatDigits (c :: rest)).map (fun n => (n : Int))

/-- Model of Python `int(s)` on a `String`. -/
def pyIntS (s : String) : Option Int := pyIntChars s.data

/-- Fuel-driven helper for rendering a natural number in decimal
(most significant digit first); fuel `n` suffices for input `n`. -/
def renderNatAux : Nat → Nat → List Char
  | 0, _ => []
  | fuel + 1, n =>
    if n = 0 then []
    else renderNatAux fuel (n / 10) ++ [Nat.digitChar (n % 10)]

/-- Decimal rendering of a natural number, as Python's `str`/f-strings do. -/
def renderNat (n : Nat) : List Char :=
  if n = 0 then ['0'] else renderNatAux n n

/-- Decimal rendering of an integer, as Python's `str`/f-strings do. -/
def renderInt (i : Int) : List Char :=
  if i < 0 then '-' :: renderNat i.natAbs else renderNat i.toNat

/-- Model of Python `s.split("-")`: split at every occurrence of `'-'`,
keeping empty segments (so `"".split("-") = [""]`, `"-5--4".split("-") =
["", "5", "", "4"]`). -/
def splitDash : List Char → List (List Char)
  | [] => [[]]
  | c :: cs =>
    if c = '-' then [] :: splitDash cs
    else
      match splitDash cs with
      | h :: t => (c :: h) :: t
      | [] => [[c]]

/-! ## `utils/season_utils.py` -/

/-- Embedding of `season_utils.parse_season`.  Python exceptions
(`IndexError` on a missing part, `ValueError` from `int`) become `none`.
`start_year // 100` is Python floor division, `Int.fdiv`. -/
def parse_season (s : String) : Option (Int × Int) := do
  let parts := splitDash s.data
  let p0 ← parts.get? 0
  let start ← pyIntChars p0
  let p1 ← parts.get? 1
  if p1.length = 2 then
    let ev ← pyIntChars p1
    let century := Int.fdiv start 100 * 100
    let endYear := century + ev
    let endYear := if endYear < start then endYear + 100 else endYear
    pure (start, endYear)
  else
    let ev ← pyIntChars p1
    pure (start, ev)

/-- Embedding of `season_utils.format_season`: `f"{start_year}-{end_year}"`,
with the end year defaulting to `start_year + 1` when omitted. -/
def format_season (startYear : Int) (endYear : Option Int) : String :=
  let e := endYear.getD (startYear + 1)
  ⟨renderInt startYear ++ '-' :: renderInt e⟩

/-! ## `models/match.py` and the stored-row shape -/

/-- Calendar date, as Python's `datetime.date` (validated construction is not
needed by any claim; equality and ISO rendering are). -/
structure MDate where
  year : Nat
  month : Nat
  day : Nat
deriving DecidableEq, Repr

/-- Left-pad a decimal rendering with zeros to width `w`
(Python `%0Nd` formatting, as `date.isoformat` uses). -/
def padDecimal (w : Nat) (n : Nat) : List Char :=
  let r := renderNat n
  List.replicate (w - r.length) '0' ++ r

/-- Python `date.isoformat()`: `YYYY-MM-DD`. -/
def MDate.iso (d : MDate) : List Char :=
  padDecimal 4 d.year ++ '-' :: padDecimal 2 d.month ++ '-' :: padDecimal 2 d.day

/-- The `venue` field: `Literal["H", "A", "N"]` in `models/match.py` (the DB
CHECK constraint `venue IN ('H','A','N')` is therefore satisfied by typing). -/
inductive Venue
  | H
  | A
  | N
deriving DecidableEq, Repr

/-- The `Match` dataclass of `models/match.py`.  The same structure doubles as
a stored `matches` row: a row holds the same information once serialized
(see `storeMatch`), with `id`/timestamps omitted (no query observes them). -/
structure Match where
  date : MDate
  opposition : String
  venue : Venue
  goals_for : Int
  goals_against : Int
  competition : String
  season : String
  attendance : Option Int := none
  referee : Option String := none
  scorers : Option (List String) := none
  lineup : Option (List String) := none
  source : String := ""
  source_match_id : Option String := none
  detail_fetched : Bool := false
deriving DecidableEq, Repr

/-- The `result` property of `Match` (derived, not stored). -/
def Match.result (m : Match) : String :=
  if m.goals_for > m.goals_against then "W"
  else if m.goals_for < m.goals_against then "L"
  else "D"

/-! ## `storage/database.py` -/

/-- The natural identity `UNIQUE(date, opposition, competition)`; `date` is
stored as the ISO text of the date, which renders dates injectively, so
`MDate` equality coincides with the stored TEXT equality. -/
def identityKey (m : Match) : MDate × String × String :=
  (m.date, m.opposition, m.competition)

/-- Python-side serialization of `scorers`/`lineup`:
`json.dumps(x) if x else None`, so an empty list is stored as NULL. -/
def normList (x : Option (List String)) : Option (List String) :=
  match x with
  | some [] => none
  | x => x

/-- A `Match` as it reaches SQLite via `insert_match`/`upsert_match`'s
parameter tuple: `scorers`/`lineup` normalized, all other fields verbatim
(`detail_fetched`'s 0/1 encoding is kept as `Bool`). -/
def storeMatch (m : Match) : Match :=
  { m with scorers := normList m.scorers, lineup := normList m.lineup }

/-- The store: the `matches` table as a list of rows in rowid order. -/
abbrev Store := List Match

/-- Database errors surfaced by the storage layer.  With `venue` an enum the
CHECK constraint cannot fire, so the only constraint error is the
`UNIQUE(date, opposition, competition)` violation. -/
inductive DbErr
  | identityConflict
deriving DecidableEq, Repr

/-- Embedding of `Database.insert_match`: a plain INSERT, which the UNIQUE
constraint rejects when a row with the same identity tuple exists. -/
def insert_match (m : Match) (s : Store) : Except DbErr Store :=
  if s.any (fun r => identityKey r = identityKey m) then
    .error .identityConflict
  else
    .ok (s ++ [storeMatch m])

/-- SQL `COALESCE(a, b)`. -/
def coalesce {α : Type} (a b : Option α) : Option α :=
  match a with
  | some x => some x
  | none => b

/-- The `ON CONFLICT(date, opposition, competition) DO UPDATE SET` clause of
`Database.upsert_match`, applied to the existing row `r` and the incoming
(already serialized) row `inc` (`excluded`). -/
def mergeRow (r inc : Match) : Match :=
  { date := r.date
    opposition := r.opposition
    competition := r.competition
    venue := inc.venue
    goals_for := inc.goals_for
    goals_against := inc.goals_against
    season := inc.season
    attendance := coalesce inc.attendance r.attendance
    referee := coalesce inc.referee r.referee
    scorers := coalesce inc.scorers r.scorers
    lineup := coalesce inc.lineup r.lineup
    source := if inc.source ≠ "" then inc.source else r.source
    source_match_id := coalesce inc.source_match_id r.source_match_id
    detail_fetched := r.detail_fetched || inc.detail_fetched }

/-- Recursion underlying `upsert_match`: SQLite updates the (unique, under the
table's invariant) conflicting row in place, otherwise appends a new row. -/
def upsertGo (m : Match) : Store → Store
  | [] => [storeMatch m]
  | r :: rest =>
    if identityKey r = identityKey m then mergeRow r (storeMatch m) :: rest
    else r :: upsertGo m rest

/-- Embedding of `Database.upsert_match`
(`INSERT ... ON CONFLICT(date, opposition, competition) DO UPDATE SET ...`). -/
def upsert_match (m : Match) (s : Store) : Store := upsertGo m s

/-! ## Read queries of `storage/database.py` -/

/-- Boolean lexicographic order on character lists, modelling SQLite's TEXT
ordering used by `ORDER BY date` on ISO date strings. -/
def lexLeb : List Char → List Char → Bool
  | [], _ => true
  | _ :: _, [] => false
  | a :: as, b :: bs =>
    if a.toNat < b.toNat then true
    else if b.toNat < a.toNat then false
    else lexLeb as bs

/-- Row order used by `ORDER BY date`. -/
def dateLe (a b : Match) : Prop := lexLeb a.date.iso b.date.iso = true

instance : DecidableRel dateLe := fun a b => by
  unfold dateLe; infer_instance

/-- SQL `ORDER BY date` (tie order among equal dates is unspecified by SQLite;
insertion order is used here). -/
def sortByDate (s : Store) : List Match := List.insertionSort dateLe s

/-- Embedding of `Database.get_all_matches`. -/
def get_all_matches (s : Store) : List Match := sortByDate s

/-- Embedding of `Database.get_matches_by_season`. -/
def get_matches_by_season (season : String) (s : Store) : List Match :=
  sortByDate (s.filter (fun r => r.season == season))

/-- Embedding of `Database.get_match_count`. -/
def get_match_count (s : Store) : Nat := s.length

/-- Python truthiness of the optional `source` argument
(`if source:` is false for both `None` and `""`). -/
def truthy : Option String → Bool
  | some s => !(s == "")
  | none => false

/-- Embedding of `Database.get_matches_needing_enrichment`:
`WHERE detail_fetched = 0 AND source_match_id IS NOT NULL` with an optional
`AND source = ?`, `ORDER BY date`. -/
def get_matches_needing_enrichment (source : Option String) (s : Store) :
    List Match :=
  if truthy source then
    sortByDate (s.filter
      (fun r => (!r.detail_fetched) && r.source_match_id.isSome
        && (some r.source == source)))
  else
    sortByDate (s.filter
      (fun r => (!r.detail_fetched) && r.source_match_id.isSome))

/-! ## `scrapers/base.py` and the `ScrapeController` of `main.py`

A scraper is abstracted to its source name, its supported-season window and
its (network-dependent) `scrape_season` behaviour as a function.  The
controller's observable effects — matches stored, count returned, and which
scrapers' `scrape_season` was invoked — are returned explicitly. -/

structure Scraper where
  name : String
  minSeason : Int
  maxSeason : Int
  scrape : Int → List Match

/-- Embedding of `BaseScraper.can_scrape_season`:
`MIN_SEASON <= start_year < MAX_SEASON`. -/
def can_scrape_season (sc : Scraper) (y : Int) : Bool :=
  sc.minSeason ≤ y && y < sc.maxSeason

/-- The controller state of `main.py`: the priority-ordered scraper list built
in `ScrapeController.__init__` and the name registry (`scraper_map`) used by
the explicit `--source` path of `scrape_season`. -/
structure Controller where
  scrapers : List Scraper
  scraperMap : List (String × Scraper)

/-- The `for scraper in scrapers_to_try` loop of
`ScrapeController.scrape_season`: each scraper in turn has `scrape_season`
called; the first non-empty result is upserted match-by-match and its length
returned.  The third component lists the source names invoked, in order. -/
def tryScrapers (db : Store) (y : Int) : List Scraper → Nat × Store × List String
  | [] => (0, db, [])
  | sc :: rest =>
    let ms := sc.scrape y
    if ms.isEmpty then
      let (c, db', inv) := tryScrapers db y rest
      (c, db', sc.name :: inv)
    else
      (ms.length, ms.foldl (fun d m => upsert_match m d) db, [sc.name])

/-- Embedding of `ScrapeController.scrape_season`.  With an explicit source
the registry is consulted (an unknown name logs an error and returns 0
without trying any scraper); otherwise all scrapers passing
`can_scrape_season` are tried in priority order. -/
def scrape_season (ctrl : Controller) (db : Store) (y : Int)
    (source : Option String) : Nat × Store × List String :=
  match source with
  | some src =>
    match ctrl.scraperMap.lookup src with
    | none => (0, db, [])
    | some sc => tryScrapers db y [sc]
  | none => tryScrapers db y (ctrl.scrapers.filter (fun sc => can_scrape_season sc y))

/-- The years visited by `range(start_year, end_year + 1)`. -/
def rangeYears (startY endY : Int) : List Int :=
  (List.range (endY + 1 - startY).toNat).map (fun i => startY + i)

/-- Embedding of `ScrapeController.scrape_range`: one `scrape_season` per year
in the inclusive range, threading the store and accumulating the total.  The
third component records, in order, each season processed with its count. -/
def scrape_range (ctrl : Controller) (db : Store) (startY endY : Int)
    (source : Option String) : Nat × Store × List (Int × Nat) :=
  (rangeYears startY endY).foldl
    (fun acc yr =>
      let r := scrape_season ctrl acc.2.1 yr source
      (acc.1 + r.1, r.2.1, acc.2.2 ++ [(yr, r.1)]))
    (0, db, [])

/-- Scraper-registry entry for `StattoScraper` (bounds from
`scrapers/statto.py`); the scraping behaviour is a parameter. -/
def stattoScraper (scrape : Int → List Match) : Scraper :=
  ⟨"statto", 1909, 2017, scrape⟩

/-- Scraper-registry entry for `TransfermarktScraper`
(bounds from `scrapers/transfermarkt.py`). -/
def transfermarktScraper (scrape : Int → List Match) : Scraper :=
  ⟨"transfermarkt", 1910, 2026, scrape⟩

/-- Scraper-registry entry for `FootballDataScraper`
(bounds from `scrapers/football_data.py`). -/
def footballDataScraper (scrape : Int → List Match) : Scraper :=
  ⟨"football-data", 1993, 2026, scrape⟩

/-- The controller as built by `ScrapeController.__init__` (priority order
statto, transfermarkt, football-data) with the `scraper_map` of
`scrape_season`, parameterized by each scraper's behaviour. -/
def mkController (st tm fd : Int → List Match) : Controller :=
  { scrapers := [stattoScraper st, transfermarktScraper tm, footballDataScraper fd]
    scraperMap :=
      [("football-data", footballDataScraper fd),
       ("transfermarkt", transfermarktScraper tm),
       ("statto", stattoScraper st)] }

/-! ## `scrapers/football_data.py`: `_parse_match_row` -/

/-- `Python "needle" in hay` substring test. -/
def containsSub (needle hay : String) : Bool :=
  decide (needle.data <:+: hay.data)

/-- Python `row.get(k, d)` on the CSV dict. -/
def rowGetD (row : String → Option String) (k d : String) : String :=
  (row k).getD d

/-- `int(row.get("FTHG", row.get("HG", 0)))` with `ValueError` as `none`
(the team-goal columns of football-data.co.uk CSVs). -/
def fdGoalField (row : String → Option String) (k1 k2 : String) : Option Int :=
  match row k1 with
  | some s => pyIntS s
  | none =>
    match row k2 with
    | some s => pyIntS s
    | none => some 0

/-- The division-to-competition table of `_parse_match_row`
(`competition_map.get(div, div)`). -/
def fdCompetition (div : String) : String :=
  if div = "E0" then "Premier League"
  else if div = "E1" then "Championship"
  else if div = "E2" then "League One"
  else if div = "E3" then "League Two"
  else if div = "EC" then "National League"
  else div

/-- Embedding of `FootballDataScraper._parse_match_row`.  Date parsing
(`_parse_date`, a `strptime` format loop) is abstracted as the `pd` parameter
returning `none` where Python raises `ValueError`.  `TEAM_NAME = "Southend"`. -/
def fd_parse_match_row (pd : String → Option MDate)
    (row : String → Option String) (season : String) : Option Match :=
  let home_team := rowGetD row "HomeTeam" ""
  let away_team := rowGetD row "AwayTeam" ""
  let is_home := containsSub "Southend" home_team
  let is_away := containsSub "Southend" away_team
  if !is_home && !is_away then none
  else
    match pd (rowGetD row "Date" ""), fdGoalField row "FTHG" "HG",
        fdGoalField row "FTAG" "AG" with
    | some md, some fthg, some ftag =>
      let vog :=
        if is_home then (Venue.H, away_team, fthg, ftag)
        else (Venue.A, home_team, ftag, fthg)
      let attendance :=
        match row "Attendance" with
        | some s =>
          if s ≠ "" then
            match pyIntS s with
            | some a => some a
            | none => none
          else none
        | none => none
      let referee :=
        match row "Referee" with
        | some s => if s = "" then none else some s
        | none => none
      some { date := md
             opposition := vog.2.1
             venue := vog.1
             goals_for := vog.2.2.1
             goals_against := vog.2.2.2
             competition := fdCompetition (rowGetD row "Div" "")
             season := season
             attendance := attendance
             referee := referee
             scorers := none
             lineup := none
             source := "football-data"
             source_match_id := some (⟨md.iso⟩ ++ "_" ++ vog.2.1)
             detail_fetched := false }
    | _, _, _ => none

/-- The goal-orientation step of `TransfermarktScraper._parse_match_row`
(lines 307–311): the parsed score pair is home-first; venue `H` keeps it,
otherwise it is swapped into the club's perspective (only `H`/`A` reach this
point, line 259 rejects anything else). -/
def tm_orient_goals (venue : Venue) (score1 score2 : Int) : Int × Int :=
  if venue = Venue.H then (score1, score2) else (score2, score1)

/-! ## Write-operation sequences and the uniqueness invariant -/

/-- A write operation against the store: raw insert or upsert. -/
inductive DbOp
  | ins (m : Match)
  | ups (m : Match)

/-- Run one write operation.  `upsert_match` handles its only possible
constraint conflict via `ON CONFLICT ... DO UPDATE`, so it always succeeds. -/
def applyOp (s : Store) : DbOp → Except DbErr Store
  | .ins m => insert_match m s
  | .ups m => .ok (upsert_match m s)

/-- Run a sequence of write operations, stopping at the first error. -/
def runOps (ops : List DbOp) (s : Store) : Except DbErr Store :=
  match ops with
  | [] => .ok s
  | op :: rest =>
    match applyOp s op with
    | .error e => .error e
    | .ok s' => runOps rest s'

/-- No two rows share the identity tuple `(date, opposition, competition)`. -/
def UniqueIdent (s : Store) : Prop := (s.map identityKey).Nodup

/-! ## Concrete sample data used by counterexamples and witnesses -/

/-- Sample stored row with a populated referee. -/
def sampleMatch : Match :=
  { date := ⟨1995, 8, 19⟩, opposition := "Colchester United", venue := .H,
    goals_for := 2, goals_against := 1, competition := "League Two",
    season := "1995-1996", referee := some "A Referee", source := "statto" }

/-- Sample incoming record sharing `sampleMatch`'s identity tuple, with an
empty-string referee. -/
def sampleEmptyRef : Match :=
  { date := ⟨1995, 8, 19⟩, opposition := "Colchester United", venue := .H,
    goals_for := 2, goals_against := 1, competition := "League Two",
    season := "1995-1996", referee := some "", source := "transfermarkt" }

/-- Sample match with a different identity tuple. -/
def sampleOther : Match :=
  { date := ⟨1995, 8, 26⟩, opposition := "Gillingham", venue := .A,
    goals_for := 0, goals_against := 2, competition := "League Two",
    season := "1995-1996", source := "statto",
    source_match_id := some "1995-08-26_Gillingham" }

/-- A controller whose three registered scrapers all return no matches. -/
def nilController : Controller :=
  mkController (fun _ => []) (fun _ => []) (fun _ => [])

/-- Adapter A of the spec's coordinator-priority example:
supports 1990–2000 and returns a record. -/
def scraperA : Scraper := ⟨"A", 1990, 2000, fun _ => [sampleMatch]⟩

/-- Adapter B of the spec's coordinator-priority example:
supports 1990–2030 and would also return a record. -/
def scraperB : Scraper := ⟨"B", 1990, 2030, fun _ => [sampleOther]⟩

/-- A controller holding adapters A and B in priority order. -/
def abController : Controller := ⟨[scraperA, scraperB], []⟩

/-- A concrete football-data CSV row involving Southend at home. -/
def sampleCsvRow : String → Option String := fun k =>
  if k = "HomeTeam" then some "Southend United"
  else if k = "AwayTeam" then some "Colchester United"
  else if k = "Date" then some "19/08/1995"
  else if k = "FTHG" then some "2"
  else if k = "FTAG" then some "1"
  else if k = "Div" then some "E3"
  else none

/-- A date parser stub for the sample row. -/
def sampleDateParse : String → Option MDate := fun _ => some ⟨1995, 8, 19⟩

/-- The record `fd_parse_match_row` produces from `sampleCsvRow`. -/
def sampleParsed : Match :=
  { date := ⟨1995, 8, 19⟩, opposition := "Colchester United", venue := .H,
    goals_for := 2, goals_against := 1, competition := "League Two",
    season := "1995-1996", source := "football-data",
    source_match_id := some "1995-08-19_Colchester United" }

/-! ## Store lemmas -/

theorem identityKey_storeMatch (m : Match) :
    identityKey (storeMatch m) = identityKey m := rfl

theorem identityKey_mergeRow (r i : Match) :
    identityKey (mergeRow r i) = identityKey r := rfl

theorem coalesce_none {α : Type} (b : Option α) : coalesce none b = b := rfl

theorem coalesce_some {α : Type} (x : α) (b : Option α) :
    coalesce (some x) b = some x := rfl

/-- Position of the merged row: when the first identity match in the store is
`e`, upsert rewrites `e` in place and leaves everything else unchanged. -/
theorem upsertGo_found (m e : Match) (s₁ s₂ : Store)
    (he : identityKey e = identityKey m)
    (h1 : ∀ r ∈ s₁, identityKey r ≠ identityKey m) :
    upsertGo m (s₁ ++ e :: s₂) = s₁ ++ mergeRow e (storeMatch m) :: s₂ := by
  induction s₁ with
  | nil => simp [upsertGo, he]
  | cons r rest ih =>
    have hr : identityKey r ≠ identityKey m := h1 r (List.mem_cons_self r rest)
    simp only [List.cons_append, upsertGo, if_neg hr, List.append_eq]
    rw [ih (fun x hx => h1 x (List.mem_cons_of_mem r hx))]

/-- Claim C1, counterexample.  The claim says an empty incoming optional field
never overwrites a populated existing value, but `COALESCE` only tests SQL
NULL: an incoming *empty-string* referee is not NULL and overwrites the
populated referee `some "A Referee"` of the existing row. -/
theorem c1_counterexample :
    identityKey sampleMatch = identityKey sampleEmptyRef ∧
    sampleMatch.referee = some "A Referee" ∧
    sampleEmptyRef.referee = some "" ∧
    (upsert_match sampleEmptyRef [sampleMatch]).map (fun r => r.referee) = [some ""] := by
  refine ⟨by decide, rfl, rfl, by decide⟩

/-- Claim C1 (amended): upsert merges field-by-field such that an *absent*
(None/NULL) incoming optional field — and, for scorers/lineup, an empty
incoming list, which is serialized as NULL — never overwrites a populated
existing value; any *present* incoming value overwrites, including an empty
string for referee or sourceMatchId; venue, goalsFor, goalsAgainst and season
are unconditionally replaced; detailFetched becomes true iff the existing or
incoming value is true; source is replaced only when the incoming source
identifier is non-empty; the identity tuple is left unchanged. -/
theorem c1_upsert_merge (e m : Match) (s₁ s₂ : Store)
    (he : identityKey e = identityKey m)
    (h1 : ∀ r ∈ s₁, identityKey r ≠ identityKey m) :
    upsert_match m (s₁ ++ e :: s₂) = s₁ ++ mergeRow e (storeMatch m) :: s₂ ∧
    identityKey (mergeRow e (storeMatch m)) = identityKey e ∧
    (m.attendance = none →
      (mergeRow e (storeMatch m)).attendance = e.attendance) ∧
    (m.referee = none → (mergeRow e (storeMatch m)).referee = e.referee) ∧
    (m.scorers = none ∨ m.scorers = some [] →
      (mergeRow e (storeMatch m)).scorers = e.scorers) ∧
    (m.lineup = none ∨ m.lineup = some [] →
      (mergeRow e (storeMatch m)).lineup = e.lineup) ∧
    (m.source_match_id = none →
      (mergeRow e (storeMatch m)).source_match_id = e.source_match_id) ∧
    (∀ a, m.attendance = some a →
      (mergeRow e (storeMatch m)).attendance = some a) ∧
    (∀ x, m.referee = some x → (mergeRow e (storeMatch m)).referee = some x) ∧
    (∀ l, l ≠ [] → m.scorers = some l →
      (mergeRow e (storeMatch m)).scorers = some l) ∧
    (∀ l, l ≠ [] → m.lineup = some l →
      (mergeRow e (storeMatch m)).lineup = some l) ∧
    (∀ x, m.source_match_id = some x →
      (mergeRow e (storeMatch m)).source_match_id = some x) ∧
    (mergeRow e (storeMatch m)).venue = m.venue ∧
    (mergeRow e (storeMatch m)).goals_for = m.goals_for ∧
    (mergeRow e (storeMatch m)).goals_against = m.goals_against ∧
    (mergeRow e (storeMatch m)).season = m.season ∧
    (mergeRow e (storeMatch m)).detail_fetched
      = (e.detail_fetched || m.detail_fetched) ∧
    (mergeRow e (storeMatch m)).source
      = (if m.source ≠ "" then m.source else e.source) := by
  refine ⟨upsertGo_found m e s₁ s₂ he h1, rfl, ?_, ?_, ?_, ?_, ?_, ?_, ?_, ?_,
    ?_, ?_, rfl, rfl, rfl, rfl, rfl, rfl⟩
  · intro h; simp [mergeRow, storeMatch, h, coalesce]
  · intro h; simp [mergeRow, storeMatch, h, coalesce]
  · rintro (h | h) <;> simp [mergeRow, storeMatch, normList, h, coalesce]
  · rintro (h | h) <;> simp [mergeRow, storeMatch, normList, h, coalesce]
  · intro h; simp [mergeRow, storeMatch, h, coalesce]
  · intro a h; simp [mergeRow, storeMatch, h, coalesce]
  · intro x h; simp [mergeRow, storeMatch, h, coalesce]
  · intro l hl h
    cases l with
    | nil => exact absurd rfl hl
    | cons a as => simp [mergeRow, storeMatch, normList, h, coalesce]
  · intro l hl h
    cases l with
    | nil => exact absurd rfl hl
    | cons a as => simp [mergeRow, storeMatch, normList, h, coalesce]
  · intro x h; simp [mergeRow, storeMatch, h, coalesce]

/-- Witness for `c1_upsert_merge` at concrete inputs. -/
theorem c1_upsert_merge_witness :
    upsert_match sampleEmptyRef ([] ++ sampleMatch :: []) =
      [] ++ mergeRow sampleMatch (storeMatch sampleEmptyRef) :: [] :=
  (c1_upsert_merge sampleMatch sampleEmptyRef [] [] (by decide)
    (fun r hr => absurd hr (List.not_mem_nil r))).1

/-- Identity keys after an upsert: an in-place merge keeps the key list; a
fresh insert appends the incoming key. -/
theorem upsertGo_keys (m : Match) : ∀ s : Store,
    (upsertGo m s).map identityKey =
      if s.any (fun r => identityKey r = identityKey m) then s.map identityKey
      else s.map identityKey ++ [identityKey m]
  | [] => by simp [upsertGo, identityKey_storeMatch]
  | r :: rest => by
    by_cases h : identityKey r = identityKey m
    · simp [upsertGo, h, identityKey_mergeRow]
    · simp only [upsertGo, if_neg h, List.map_cons]
      rw [upsertGo_keys m rest]
      by_cases h2 : rest.any (fun r => identityKey r = identityKey m) <;>
        simp [h2, h]

theorem uniqueIdent_upsert (m : Match) (s : Store) (h : UniqueIdent s) :
    UniqueIdent (upsert_match m s) := by
  unfold UniqueIdent upsert_match at *
  rw [upsertGo_keys]
  by_cases hc : s.any (fun r => identityKey r = identityKey m)
  · simpa [hc] using h
  · rw [if_neg hc]
    have hnm : identityKey m ∉ s.map identityKey := by
      intro hmem
      rcases List.mem_map.1 hmem with ⟨r, hr, hk⟩
      exact absurd (List.any_eq_true.2 ⟨r, hr, by simp [hk]⟩) hc
    rw [List.nodup_append]
    exact ⟨h, List.nodup_singleton _,
      fun a ha hb => hnm ((List.mem_singleton.1 hb) ▸ ha)⟩

theorem uniqueIdent_insert (m : Match) (s s' : Store)
    (hok : insert_match m s = .ok s') (h : UniqueIdent s) : UniqueIdent s' := by
  unfold insert_match at hok
  split at hok
  · simp at hok
  · rename_i hc
    have hok' : s ++ [storeMatch m] = s' := by
      simpa using hok
    subst hok'
    have hnm : identityKey m ∉ s.map identityKey := by
      intro hmem
      rcases List.mem_map.1 hmem with ⟨r, hr, hk⟩
      exact absurd (List.any_eq_true.2 ⟨r, hr, by simp [hk]⟩) hc
    unfold UniqueIdent
    rw [List.map_append, List.nodup_append]
    refine ⟨h, by simp, ?_⟩
    intro a ha hb
    rw [List.map_singleton, List.mem_singleton] at hb
    exact hnm (by rw [identityKey_storeMatch] at hb; exact hb ▸ ha)

theorem uniqueIdent_runOps : ∀ (ops : List DbOp) (s s' : Store),
    UniqueIdent s → runOps ops s = .ok s' → UniqueIdent s'
  | [], s, s', h, hok => by
    simp only [runOps, Except.ok.injEq] at hok; exact hok ▸ h
  | op :: rest, s, s', h, hok => by
    simp only [runOps] at hok
    cases op with
    | ins m =>
      cases hins : insert_match m s with
      | error e => simp [applyOp, hins] at hok
      | ok s1 =>
        simp only [applyOp, hins] at hok
        exact uniqueIdent_runOps rest s1 s' (uniqueIdent_insert m s s1 hins h) hok
    | ups m =>
      simp only [applyOp] at hok
      exact uniqueIdent_runOps rest (upsert_match m s) s'
        (uniqueIdent_upsert m s h) hok

/-- Claim C2: the identity-uniqueness invariant is preserved by every
successful sequence of inserts and upserts; a raw insert of a record whose
identity tuple already exists fails with the identity-conflict error; and
upsert never raises an identity-conflict error (it always succeeds). -/
theorem c2_identity_uniqueness :
    (∀ (ops : List DbOp) (s s' : Store),
      UniqueIdent s → runOps ops s = .ok s' → UniqueIdent s') ∧
    (∀ (m : Match) (s : Store), (∃ r ∈ s, identityKey r = identityKey m) →
      insert_match m s = .error .identityConflict) ∧
    (∀ (m : Match) (s : Store), applyOp s (.ups m) = .ok (upsert_match m s)) := by
  refine ⟨uniqueIdent_runOps, ?_, fun _ _ => rfl⟩
  intro m s ⟨r, hr, hk⟩
  unfold insert_match
  rw [if_pos (List.any_eq_true.2 ⟨r, hr, by simp [hk]⟩)]

/-- Witness for `c2_identity_uniqueness` at concrete inputs. -/
theorem c2_identity_uniqueness_witness :
    insert_match sampleEmptyRef [sampleMatch] = .error .identityConflict :=
  c2_identity_uniqueness.2.1 sampleEmptyRef [sampleMatch]
    ⟨sampleMatch, List.mem_singleton.2 rfl, by decide⟩

/-! ## Idempotence of upsert -/

theorem coalesce_self {α : Type} (a : Option α) : coalesce a a = a := by
  cases a <;> rfl

theorem coalesce_absorb {α : Type} (a b : Option α) :
    coalesce a (coalesce a b) = coalesce a b := by
  cases a <;> rfl

theorem mergeRow_self (x : Match) : mergeRow x x = x := by
  simp only [mergeRow, coalesce_self, ite_self, Bool.or_self]

theorem mergeRow_absorb (r i : Match) :
    mergeRow (mergeRow r i) i = mergeRow r i := by
  by_cases h : i.source = "" <;>
    simp [mergeRow, coalesce_absorb, h, Bool.or_assoc]

theorem upsertGo_idem (m : Match) : ∀ s : Store,
    upsertGo m (upsertGo m s) = upsertGo m s
  | [] => by
    simp [upsertGo, identityKey_storeMatch, mergeRow_self]
  | r :: rest => by
    by_cases h : identityKey r = identityKey m
    · have hm : identityKey (mergeRow r (storeMatch m)) = identityKey m := by
        rw [identityKey_mergeRow]; exact h
      simp [upsertGo, h, hm, mergeRow_absorb]
    · simp [upsertGo, h, upsertGo_idem m rest]

/-- Claim C4: upsert is idempotent — applying the same record twice leaves
the store (hence every read query over it) in the same state as applying it
once. -/
theorem c4_upsert_idempotent (m : Match) (s : Store) :
    upsert_match m (upsert_match m s) = upsert_match m s ∧
    get_all_matches (upsert_match m (upsert_match m s))
      = get_all_matches (upsert_match m s) ∧
    get_match_count (upsert_match m (upsert_match m s))
      = get_match_count (upsert_match m s) ∧
    (∀ season, get_matches_by_season season (upsert_match m (upsert_match m s))
      = get_matches_by_season season (upsert_match m s)) ∧
    (∀ src, get_matches_needing_enrichment src (upsert_match m (upsert_match m s))
      = get_matches_needing_enrichment src (upsert_match m s)) := by
  have h : upsert_match m (upsert_match m s) = upsert_match m s :=
    upsertGo_idem m s
  exact ⟨h, by rw [h], by rw [h], fun _ => by rw [h], fun _ => by rw [h]⟩

/-- Witness for `c4_upsert_idempotent` at concrete inputs. -/
theorem c4_upsert_idempotent_witness :
    upsert_match sampleOther (upsert_match sampleOther [sampleMatch])
      = upsert_match sampleOther [sampleMatch] :=
  (c4_upsert_idempotent sampleOther [sampleMatch]).1

/-! ## Ordering lemmas for `ORDER BY date` -/

theorem lexLeb_total : ∀ xs ys : List Char,
    lexLeb xs ys = true ∨ lexLeb ys xs = true
  | [], _ => Or.inl rfl
  | _ :: _, [] => Or.inr rfl
  | a :: as, b :: bs => by
    rcases Nat.lt_trichotomy a.toNat b.toNat with h | h | h
    · left; simp [lexLeb, h]
    · have h' : ¬ a.toNat < b.toNat := by omega
      have h'' : ¬ b.toNat < a.toNat := by omega
      rcases lexLeb_total as bs with ih | ih
      · left; simp [lexLeb, h', h'', ih]
      · right; simp [lexLeb, h', h'', ih]
    · right; simp [lexLeb, h]

theorem lexLeb_trans : ∀ xs ys zs : List Char,
    lexLeb xs ys = true → lexLeb ys zs = true → lexLeb xs zs = true
  | [], _, _, _, _ => rfl
  | a :: as, [], _, h1, _ => by simp [lexLeb] at h1
  | a :: as, b :: bs, [], _, h2 => by simp [lexLeb] at h2
  | a :: as, b :: bs, c :: cs, h1, h2 => by
    simp only [lexLeb] at h1 h2 ⊢
    split_ifs at h1 h2 ⊢ with hab hba hbc hcb hac hca <;>
      first
        | rfl
        | omega
        | (exact lexLeb_trans as bs cs h1 h2)

instance : IsTotal Match dateLe :=
  ⟨fun a b => lexLeb_total a.date.iso b.date.iso⟩

instance : IsTrans Match dateLe :=
  ⟨fun a b c => lexLeb_trans a.date.iso b.date.iso c.date.iso⟩

/-- Membership characterization of the enrichment query. -/
theorem enrich_mem (s : Store) (src : Option String) (m : Match) :
    m ∈ get_matches_needing_enrichment src s ↔
      (m ∈ s ∧ m.detail_fetched = false ∧ m.source_match_id ≠ none ∧
        (truthy src = true → some m.source = src)) := by
  unfold get_matches_needing_enrichment sortByDate
  by_cases ht : truthy src = true
  · rw [if_pos ht, (List.perm_insertionSort dateLe _).mem_iff, List.mem_filter]
    simp only [Bool.and_eq_true, Bool.not_eq_true', beq_iff_eq,
      Option.isSome_iff_exists]
    constructor
    · rintro ⟨hm, ⟨⟨hdf, x, hx⟩, hsrc⟩⟩
      exact ⟨hm, hdf, by simp [hx], fun _ => hsrc⟩
    · rintro ⟨hm, hdf, hne, himp⟩
      rcases Option.ne_none_iff_exists'.1 hne with ⟨x, hx⟩
      exact ⟨hm, ⟨⟨hdf, x, hx⟩, himp ht⟩⟩
  · rw [if_neg ht, (List.perm_insertionSort dateLe _).mem_iff, List.mem_filter]
    simp only [Bool.and_eq_true, Bool.not_eq_true', Option.isSome_iff_exists]
    constructor
    · rintro ⟨hm, hdf, x, hx⟩
      exact ⟨hm, hdf, by simp [hx], fun hcon => absurd hcon ht⟩
    · rintro ⟨hm, hdf, hne, _⟩
      rcases Option.ne_none_iff_exists'.1 hne with ⟨x, hx⟩
      exact ⟨hm, hdf, x, hx⟩

/-- Claim C10: the enrichment query returns exactly the stored records whose
`detailFetched` flag is false and whose `sourceMatchId` is non-null (further
filtered by `source` when a truthy source argument is given), ordered by
date; a record lacking a `sourceMatchId` is never returned. -/
theorem c10_enrichment_query (s : Store) (src : Option String) (m : Match) :
    (m ∈ get_matches_needing_enrichment src s ↔
      (m ∈ s ∧ m.detail_fetched = false ∧ m.source_match_id ≠ none ∧
        (truthy src = true → some m.source = src))) ∧
    List.Sorted dateLe (get_matches_needing_enrichment src s) ∧
    (m.source_match_id = none → m ∉ get_matches_needing_enrichment src s) := by
  refine ⟨enrich_mem s src m, ?_, ?_⟩
  · unfold get_matches_needing_enrichment sortByDate
    split <;> exact List.sorted_insertionSort dateLe _
  · intro hnone hmem
    exact ((enrich_mem s src m).1 hmem).2.2.1 hnone

/-- Witness for `c10_enrichment_query` at concrete inputs. -/
theorem c10_enrichment_query_witness :
    sampleOther ∈ get_matches_needing_enrichment none [sampleOther] :=
  (c10_enrichment_query [sampleOther] none sampleOther).1.mpr
    ⟨List.mem_singleton.2 rfl, rfl, by decide, fun hcon => by cases hcon⟩

/-! ## Coordinator lemmas -/

/-- The scraper loop with leading empty-result scrapers and a first
non-empty scraper `w`: `w`'s records win, scrapers after `w` are untouched. -/
theorem tryScrapers_first_success (db : Store) (y : Int) (w : Scraper)
    (E1 E2 : List Scraper)
    (h1 : ∀ sc ∈ E1, sc.scrape y = []) (hw : w.scrape y ≠ []) :
    tryScrapers db y (E1 ++ w :: E2) =
      ((w.scrape y).length,
       (w.scrape y).foldl (fun d m => upsert_match m d) db,
       E1.map (fun sc => sc.name) ++ [w.name]) := by
  induction E1 with
  | nil =>
    have hne : (w.scrape y).isEmpty ≠ true := by
      simpa [List.isEmpty_iff] using hw
    simp [tryScrapers, hne]
  | cons sc rest ih =>
    have hsc : sc.scrape y = [] := h1 sc (List.mem_cons_self _ _)
    simp only [List.cons_append, tryScrapers, hsc, List.isEmpty_nil, if_pos,
      List.append_eq]
    rw [ih (fun x hx => h1 x (List.mem_cons_of_mem _ hx))]
    simp

/-- The scraper loop when every scraper in the list returns no matches:
everything is tried, nothing is stored, count is zero. -/
theorem tryScrapers_all_empty (db : Store) (y : Int) : ∀ l : List Scraper,
    (∀ sc ∈ l, sc.scrape y = []) →
    tryScrapers db y l = (0, db, l.map (fun sc => sc.name))
  | [], _ => rfl
  | sc :: rest, h => by
    have hsc : sc.scrape y = [] := h sc (List.mem_cons_self _ _)
    simp only [tryScrapers, hsc, List.isEmpty_nil, if_pos]
    rw [tryScrapers_all_empty db y rest
      (fun x hx => h x (List.mem_cons_of_mem _ hx))]
    simp

/-- Claim C3: for a season request without an explicit source, the eligible
adapters (supported-year window covering the season) are tried in priority
order and the first one returning at least one record wins: its records are
the stored result and the returned count, and no adapter after it is
invoked (the invocation trace ends at the winner). -/
theorem c3_first_success_wins (ctrl : Controller) (db : Store) (y : Int)
    (E1 E2 : List Scraper) (w : Scraper)
    (hfilter : ctrl.scrapers.filter (fun sc => can_scrape_season sc y)
      = E1 ++ w :: E2)
    (h1 : ∀ sc ∈ E1, sc.scrape y = []) (hw : w.scrape y ≠ []) :
    scrape_season ctrl db y none =
      ((w.scrape y).length,
       (w.scrape y).foldl (fun d m => upsert_match m d) db,
       E1.map (fun sc => sc.name) ++ [w.name]) := by
  unfold scrape_season
  rw [hfilter]
  exact tryScrapers_first_success db y w E1 E2 h1 hw

/-- Witness for `c3_first_success_wins`: the spec's A/B example — A supports
1990–2000 and returns a record, B supports 1990–2030; season 1995 yields A's
record and B is never invoked. -/
theorem c3_first_success_wins_witness :
    scrape_season abController [] 1995 none
      = (1, [storeMatch sampleMatch], ["A"]) :=
  (c3_first_success_wins abController [] 1995 [] [scraperB] scraperA rfl
    (fun sc hsc => absurd hsc (List.not_mem_nil sc))
    (by decide)).trans rfl

/-- Threading lemma for `scrape_range`: when every per-season call returns
count zero and leaves the store unchanged, the fold only extends the trace. -/
theorem scrapeRange_fold_zero (ctrl : Controller) (src : Option String) :
    ∀ (ys : List Int) (acc : Nat × Store × List (Int × Nat)),
    (∀ (db : Store), ∀ y ∈ ys, (scrape_season ctrl db y src).1 = 0 ∧
      (scrape_season ctrl db y src).2.1 = db) →
    (ys.foldl
      (fun acc yr =>
        let r := scrape_season ctrl acc.2.1 yr src
        (acc.1 + r.1, r.2.1, acc.2.2 ++ [(yr, r.1)])) acc)
      = (acc.1, acc.2.1, acc.2.2 ++ ys.map (fun y => (y, 0)))
  | [], acc, _ => by simp
  | y :: ys, acc, h => by
    have hy := h acc.2.1 y (List.mem_cons_self _ _)
    simp only [List.foldl_cons, hy.1, hy.2, Nat.add_zero]
    rw [scrapeRange_fold_zero ctrl src ys _
      (fun db x hx => h db x (List.mem_cons_of_mem _ hx))]
    simp

/-- Trace lemma for `scrape_range`: one trace entry is appended per year in
the range, whatever each season returns. -/
theorem scrapeRange_fold_trace (ctrl : Controller) (src : Option String) :
    ∀ (ys : List Int) (acc : Nat × Store × List (Int × Nat)),
    ((ys.foldl
      (fun acc yr =>
        let r := scrape_season ctrl acc.2.1 yr src
        (acc.1 + r.1, r.2.1, acc.2.2 ++ [(yr, r.1)])) acc).2.2).map Prod.fst
      = acc.2.2.map Prod.fst ++ ys
  | [], acc => by simp
  | y :: ys, acc => by
    simp only [List.foldl_cons]
    rw [scrapeRange_fold_trace ctrl src ys]
    simp

/-- Claim C8: a season whose eligible adapters all return zero records (in
particular, a season with no eligible adapter) returns count zero with the
store unchanged, and never errors; a range scrape visits every year of the
range regardless of outcomes, so empty seasons never block later ones, and a
range of all-empty seasons totals zero with the store unchanged. -/
theorem c8_empty_seasons_nonfatal :
    (∀ (ctrl : Controller) (db : Store) (y : Int),
      (∀ sc ∈ ctrl.scrapers.filter (fun sc => can_scrape_season sc y),
        sc.scrape y = []) →
      scrape_season ctrl db y none =
        (0, db, (ctrl.scrapers.filter
          (fun sc => can_scrape_season sc y)).map (fun sc => sc.name))) ∧
    (∀ (ctrl : Controller) (db : Store) (y1 y2 : Int) (src : Option String),
      ((scrape_range ctrl db y1 y2 src).2.2).map Prod.fst = rangeYears y1 y2) ∧
    (∀ (ctrl : Controller) (db : Store) (y1 y2 : Int),
      (∀ y ∈ rangeYears y1 y2,
        ∀ sc ∈ ctrl.scrapers.filter (fun sc => can_scrape_season sc y),
          sc.scrape y = []) →
      scrape_range ctrl db y1 y2 none =
        (0, db, (rangeYears y1 y2).map (fun y => (y, 0)))) := by
  refine ⟨?_, ?_, ?_⟩
  · intro ctrl db y h
    unfold scrape_season
    exact tryScrapers_all_empty db y _ h
  · intro ctrl db y1 y2 src
    unfold scrape_range
    rw [scrapeRange_fold_trace ctrl src (rangeYears y1 y2)]
    simp
  · intro ctrl db y1 y2 h
    unfold scrape_range
    rw [scrapeRange_fold_zero ctrl none (rangeYears y1 y2) (0, db, [])]
    · simp
    · intro db' y hy
      unfold scrape_season
      rw [tryScrapers_all_empty db' y _ (h y hy)]
      exact ⟨rfl, rfl⟩

/-- Witness for `c8_empty_seasons_nonfatal` at concrete inputs. -/
theorem c8_empty_seasons_nonfatal_witness :
    scrape_range nilController [] 1995 1997 none
      = (0, [], (rangeYears 1995 1997).map (fun y => (y, 0))) :=
  c8_empty_seasons_nonfatal.2.2 nilController [] 1995 1997
    (by
      intro y hy sc hsc
      have hmem := (List.mem_filter.1 hsc).1
      simp only [nilController, mkController, stattoScraper,
        transfermarktScraper, footballDataScraper, List.mem_cons,
        List.not_mem_nil, or_false] at hmem
      rcases hmem with rfl | rfl | rfl <;> rfl)

/-- Claim C9, counterexample.  The claim says a range scrape given an unknown
source name does not proceed through the remaining seasons; in the code,
`scrape_season` merely logs and returns 0, and `scrape_range` goes on to call
it for every year of the range: all three seasons 1995–1997 are processed. -/
theorem c9_counterexample :
    (nilController.scraperMap.lookup "bogus").isNone = true ∧
    ((scrape_range nilController [] 1995 1997 (some "bogus")).2.2).map Prod.fst
      = [1995, 1996, 1997] :=
  ⟨rfl, by decide⟩

/-- Claim C9 (amended): when the explicitly requested source name matches no
registered adapter, the single-season scrape invokes no adapter and returns
zero; a range scrape does *not* stop early — it proceeds through every season
of the range, each contributing zero (only the CLI argument parser rejects
unknown source names up front). -/
theorem c9_unknown_source (ctrl : Controller) (db : Store) (src : String)
    (h : ctrl.scraperMap.lookup src = none) :
    (∀ y, scrape_season ctrl db y (some src) = (0, db, [])) ∧
    (∀ y1 y2, scrape_range ctrl db y1 y2 (some src)
      = (0, db, (rangeYears y1 y2).map (fun y => (y, 0)))) := by
  have hseason : ∀ (db' : Store) (y : Int),
      scrape_season ctrl db' y (some src) = (0, db', []) := by
    intro db' y
    unfold scrape_season
    simp [h]
  refine ⟨fun y => hseason db y, fun y1 y2 => ?_⟩
  unfold scrape_range
  rw [scrapeRange_fold_zero ctrl (some src) (rangeYears y1 y2) (0, db, [])]
  · simp
  · intro db' y _
    rw [hseason db' y]
    exact ⟨rfl, rfl⟩

/-- Witness for `c9_unknown_source` at concrete inputs. -/
theorem c9_unknown_source_witness :
    scrape_range nilController [] 1995 1997 (some "bogus")
      = (0, [], (rangeYears 1995 1997).map (fun y => (y, 0))) :=
  (c9_unknown_source nilController [] "bogus" rfl).2 1995 1997

/-! ## Venue and goal orientation (claim C5) -/

/-- Claim C5: whenever `_parse_match_row` produces a record, venue and goals
are resolved into the tracked club's perspective — if Southend is the home
side the record is a home fixture with `goalsFor` the home score (FTHG) and
`goalsAgainst` the away score (FTAG) against the away team; otherwise it is
an away fixture with the scores swapped and the home team as opposition.
The Transfermarkt row parser applies the same orientation to its home-first
score pair. -/
theorem c5_goal_orientation (pd : String → Option MDate)
    (row : String → Option String) (season : String) (m : Match)
    (h : fd_parse_match_row pd row season = some m) :
    (containsSub "Southend" (rowGetD row "HomeTeam" "") = true →
      m.venue = Venue.H ∧ m.opposition = rowGetD row "AwayTeam" "" ∧
      fdGoalField row "FTHG" "HG" = some m.goals_for ∧
      fdGoalField row "FTAG" "AG" = some m.goals_against) ∧
    (containsSub "Southend" (rowGetD row "HomeTeam" "") = false →
      m.venue = Venue.A ∧ m.opposition = rowGetD row "HomeTeam" "" ∧
      fdGoalField row "FTAG" "AG" = some m.goals_for ∧
      fdGoalField row "FTHG" "HG" = some m.goals_against) ∧
    (∀ (v : Venue) (s1 s2 : Int),
      (v = Venue.H → tm_orient_goals v s1 s2 = (s1, s2)) ∧
      (v ≠ Venue.H → tm_orient_goals v s1 s2 = (s2, s1))) := by
  refine ⟨?_, ?_, ?_⟩
  · intro hh
    unfold fd_parse_match_row at h
    simp only [hh, Bool.not_true, Bool.false_and] at h
    cases hpd : pd (rowGetD row "Date" "") with
    | none => rw [hpd] at h; simp at h
    | some md =>
      cases hg1 : fdGoalField row "FTHG" "HG" with
      | none => rw [hpd, hg1] at h; simp at h
      | some fthg =>
        cases hg2 : fdGoalField row "FTAG" "AG" with
        | none => rw [hpd, hg1, hg2] at h; simp at h
        | some ftag =>
          rw [hpd, hg1, hg2] at h
          simp only [Bool.false_eq_true, if_false, Option.some.injEq] at h
          subst h
          exact ⟨rfl, rfl, rfl, rfl⟩
  · intro hh
    unfold fd_parse_match_row at h
    simp only [hh, Bool.not_false, Bool.true_and, Bool.false_eq_true,
      if_false] at h
    cases ha : containsSub "Southend" (rowGetD row "AwayTeam" "") with
    | false => rw [ha] at h; simp at h
    | true =>
      rw [ha] at h
      simp only [Bool.not_true, Bool.false_eq_true, if_false] at h
      cases hpd : pd (rowGetD row "Date" "") with
      | none => rw [hpd] at h; simp at h
      | some md =>
        cases hg1 : fdGoalField row "FTHG" "HG" with
        | none => rw [hpd, hg1] at h; simp at h
        | some fthg =>
          cases hg2 : fdGoalField row "FTAG" "AG" with
          | none => rw [hpd, hg1, hg2] at h; simp at h
          | some ftag =>
            rw [hpd, hg1, hg2] at h
            simp only [Option.some.injEq] at h
            subst h
            exact ⟨rfl, rfl, rfl, rfl⟩
  · intro v s1 s2
    constructor
    · intro hv; simp [tm_orient_goals, hv]
    · intro hv; simp [tm_orient_goals, hv]

/-- Witness for `c5_goal_orientation` on the sample CSV row. -/
theorem c5_goal_orientation_witness :
    sampleParsed.venue = Venue.H ∧
    sampleParsed.opposition = rowGetD sampleCsvRow "AwayTeam" "" ∧
    fdGoalField sampleCsvRow "FTHG" "HG" = some sampleParsed.goals_for ∧
    fdGoalField sampleCsvRow "FTAG" "AG" = some sampleParsed.goals_against :=
  (c5_goal_orientation sampleDateParse sampleCsvRow "1995-1996" sampleParsed
    (by decide)).1 (by decide)

/-! ## Decimal rendering and parsing lemmas (claims C6, C7) -/

theorem digitChar_isDigit (d : Nat) (hd : d < 10) :
    (Nat.digitChar d).isDigit = true := by
  interval_cases d <;> decide

theorem digitChar_val (d : Nat) (hd : d < 10) :
    digitVal (Nat.digitChar d) = d := by
  interval_cases d <;> decide

theorem isDigit_ne_dash {c : Char} (h : c.isDigit = true) : c ≠ '-' := by
  intro hc; subst hc; exact absurd h (by decide)

theorem isDigit_ne_plus {c : Char} (h : c.isDigit = true) : c ≠ '+' := by
  intro hc; subst hc; exact absurd h (by decide)

theorem renderNatAux_digits : ∀ (fuel n : Nat), ∀ c ∈ renderNatAux fuel n,
    c.isDigit = true
  | 0, _, c, hc => absurd hc (List.not_mem_nil c)
  | fuel + 1, n, c, hc => by
    by_cases hn : n = 0
    · rw [renderNatAux, if_pos hn] at hc
      exact absurd hc (List.not_mem_nil c)
    · rw [renderNatAux, if_neg hn] at hc
      rcases List.mem_append.1 hc with h | h
      · exact renderNatAux_digits fuel (n / 10) c h
      · rw [List.mem_singleton.1 h]
        exact digitChar_isDigit _ (Nat.mod_lt n (by norm_num))

theorem renderNatAux_ne_nil (fuel n : Nat) (h0 : 0 < n) (hf : n ≤ fuel) :
    renderNatAux fuel n ≠ [] := by
  cases fuel with
  | zero => omega
  | succ f =>
    rw [renderNatAux, if_neg (by omega)]
    simp

theorem renderNatAux_foldl : ∀ (fuel n acc : Nat), n ≤ fuel →
    (renderNatAux fuel n).foldl (fun a c => a * 10 + digitVal c) acc
      = acc * 10 ^ (renderNatAux fuel n).length + n
  | 0, n, acc, hf => by
    have : n = 0 := by omega
    subst this; simp [renderNatAux]
  | fuel + 1, n, acc, hf => by
    by_cases hn : n = 0
    · subst hn; simp [renderNatAux]
    · rw [renderNatAux, if_neg hn]
      have hdiv : n / 10 < n := Nat.div_lt_self (by omega) (by norm_num)
      rw [List.foldl_append,
        renderNatAux_foldl fuel (n / 10) acc (by omega)]
      simp only [List.foldl_cons, List.foldl_nil, List.length_append,
        List.length_singleton]
      rw [digitChar_val _ (Nat.mod_lt n (by norm_num))]
      have hmod : 10 * (n / 10) + n % 10 = n := Nat.div_add_mod n 10
      calc (acc * 10 ^ (renderNatAux fuel (n / 10)).length + n / 10) * 10
            + n % 10
          = acc * (10 ^ (renderNatAux fuel (n / 10)).length * 10)
            + (10 * (n / 10) + n % 10) := by ring
        _ = acc * 10 ^ ((renderNatAux fuel (n / 10)).length + 1) + n := by
            rw [hmod, pow_succ]

theorem renderNatAux_lt : ∀ (fuel n : Nat), n ≤ fuel →
    n < 10 ^ (renderNatAux fuel n).length
  | 0, n, hf => by
    have : n = 0 := by omega
    subst this; simp [renderNatAux]
  | fuel + 1, n, hf => by
    by_cases hn : n = 0
    · subst hn; simp [renderNatAux]
    · rw [renderNatAux, if_neg hn]
      have hdiv : n / 10 < n := Nat.div_lt_self (by omega) (by norm_num)
      have ih := renderNatAux_lt fuel (n / 10) (by omega)
      have hmod : 10 * (n / 10) + n % 10 = n := Nat.div_add_mod n 10
      have hm : n % 10 < 10 := Nat.mod_lt n (by norm_num)
      simp only [List.length_append, List.length_singleton]
      rw [pow_succ]
      omega

theorem renderNat_digits (n : Nat) : ∀ c ∈ renderNat n, c.isDigit = true := by
  intro c hc
  unfold renderNat at hc
  by_cases hn : n = 0
  · rw [if_pos hn] at hc
    rw [List.mem_singleton.1 hc]; decide
  · rw [if_neg hn] at hc
    exact renderNatAux_digits n n c hc

theorem renderNat_ne_nil (n : Nat) : renderNat n ≠ [] := by
  unfold renderNat
  by_cases hn : n = 0
  · rw [if_pos hn]; simp
  · rw [if_neg hn]
    exact renderNatAux_ne_nil n n (by omega) le_rfl

theorem renderNat_no_dash (n : Nat) : '-' ∉ renderNat n := by
  intro hc
  exact absurd (renderNat_digits n '-' hc) (by decide)

theorem renderNat_lt (n : Nat) : n < 10 ^ (renderNat n).length := by
  unfold renderNat
  by_cases hn : n = 0
  · rw [if_pos hn]; subst hn; simp
  · rw [if_neg hn]
    exact renderNatAux_lt n n le_rfl

theorem parseNatDigits_renderNat (n : Nat) :
    parseNatDigits (renderNat n) = some n := by
  unfold parseNatDigits
  rw [if_pos]
  · by_cases hn : n = 0
    · subst hn; rfl
    · rw [show renderNat n = renderNatAux n n from if_neg hn]
      rw [renderNatAux_foldl n n 0 le_rfl]
      simp
  · rw [Bool.and_eq_true]
    refine ⟨?_, ?_⟩
    · simpa [List.isEmpty_iff] using renderNat_ne_nil n
    · exact List.all_eq_true.2 fun c hc => renderNat_digits n c hc

theorem pyIntChars_renderNat (n : Nat) :
    pyIntChars (renderNat n) = some (n : Int) := by
  cases hr : renderNat n with
  | nil => exact absurd hr (renderNat_ne_nil n)
  | cons c cs =>
    have hd : c.isDigit = true :=
      renderNat_digits n c (hr ▸ List.mem_cons_self c cs)
    rw [pyIntChars, if_neg (isDigit_ne_dash hd), if_neg (isDigit_ne_plus hd),
      ← hr, parseNatDigits_renderNat n]
    rfl

theorem splitDash_no_dash : ∀ xs : List Char, '-' ∉ xs → splitDash xs = [xs]
  | [], _ => rfl
  | c :: cs, h => by
    have hc : c ≠ '-' := fun hcc => h (hcc ▸ List.mem_cons_self c cs)
    rw [splitDash, if_neg hc,
      splitDash_no_dash cs (fun hm => h (List.mem_cons_of_mem c hm))]

theorem splitDash_append : ∀ (xs ys : List Char), '-' ∉ xs →
    splitDash (xs ++ '-' :: ys) = xs :: splitDash ys
  | [], ys, _ => by simp [splitDash]
  | c :: cs, ys, h => by
    have hc : c ≠ '-' := fun hcc => h (hcc ▸ List.mem_cons_self c cs)
    rw [List.cons_append, splitDash, if_neg hc,
      splitDash_append cs ys (fun hm => h (List.mem_cons_of_mem c hm))]

theorem renderInt_ofNat (n : Nat) : renderInt (n : Int) = renderNat n := by
  unfold renderInt
  rw [if_neg (by exact Int.not_lt.mpr (Int.natCast_nonneg n)), Int.toNat_natCast]

/-- Claim C6, counterexample.  The claim quantifies over *every* integer, but
for a negative year the formatted string's sign characters are themselves
split on: `format_season (-1)` gives `"-1-0"`, whose first `split("-")` part
is empty, so `int()` raises and the round trip fails instead of returning
`(-1, 0)`. -/
theorem c6_counterexample :
    parse_season (format_season (-1) none) = none ∧
    ¬ parse_season (format_season (-1) none) = some (-1, 0) := by
  refine ⟨by decide, by decide⟩

/-- Claim C6 (amended): for every *non-negative* integer `y`,
`parse_season (format_season y) = (y, y + 1)`, where `format_season` with the
end year omitted defaults it to `y + 1` (for negative `y` the round trip
fails, see the counterexample). -/
theorem c6_round_trip (y : Nat) :
    parse_season (format_season (y : Int) none) = some ((y : Int), (y : Int) + 1) := by
  have hcast : ((y : Int) + 1) = ((y + 1 : Nat) : Int) := by push_cast; ring
  have hfmt : format_season (y : Int) none
      = ⟨renderNat y ++ '-' :: renderNat (y + 1)⟩ := by
    unfold format_season
    simp only [Option.getD_none]
    rw [hcast, renderInt_ofNat, renderInt_ofNat]
  rw [hfmt]
  unfold parse_season
  have hsplit : splitDash (String.mk (renderNat y ++ '-' :: renderNat (y + 1))).data
      = [renderNat y, renderNat (y + 1)] := by
    show splitDash (renderNat y ++ '-' :: renderNat (y + 1)) = _
    rw [splitDash_append (renderNat y) (renderNat (y + 1)) (renderNat_no_dash y),
      splitDash_no_dash (renderNat (y + 1)) (renderNat_no_dash (y + 1))]
  rw [hsplit]
  simp only [List.get?, Option.bind_eq_bind, Option.some_bind, pyIntChars_renderNat]
  by_cases hlen : (renderNat (y + 1)).length = 2
  · rw [if_pos hlen]
    have hlt : y + 1 < 100 := by
      have hb := renderNat_lt (y + 1)
      rw [hlen] at hb
      norm_num at hb
      exact hb
    have hfdiv : ((y : Int)).fdiv 100 = 0 := by
      have h0 : y / 100 = 0 := Nat.div_eq_of_lt (by omega)
      have h1 := Int.ofNat_fdiv y 100
      rw [h0] at h1
      simpa using h1.symm
    rw [hfdiv]
    simp only [zero_mul, zero_add]
    rw [if_neg (by push_cast; omega)]
    push_cast
    rfl
  · rw [if_neg hlen]
    push_cast
    rfl

/-- Witness for `c6_round_trip` at a concrete year. -/
theorem c6_round_trip_witness :
    parse_season (format_season ((1999 : Nat) : Int) none)
      = some (((1999 : Nat) : Int), ((1999 : Nat) : Int) + 1) :=
  c6_round_trip 1999

/-- Claim C7: `parse_season` accepts a 4-digit and a 2-digit end year; for any
start year and any two end-year digits, the end year is reconstructed as the
start year's century plus the two-digit value, rolled forward one century
when the reconstruction falls below the start year; in particular
`parse_season "1999-00" = (1999, 2000)` and
`parse_season "1920-1921" = (1920, 1921)`. -/
theorem c7_two_digit_end :
    (∀ (start : Nat) (c1 c2 : Char), c1.isDigit = true → c2.isDigit = true →
      parse_season ⟨renderNat start ++ '-' :: [c1, c2]⟩
        = some ((start : Int),
            if ((start / 100 * 100 + (digitVal c1 * 10 + digitVal c2) : Nat) : Int)
                < (start : Int)
            then ((start / 100 * 100 + (digitVal c1 * 10 + digitVal c2) : Nat) : Int)
              + 100
            else ((start / 100 * 100 + (digitVal c1 * 10 + digitVal c2) : Nat) : Int))) ∧
    parse_season "1999-00" = some (1999, 2000) ∧
    parse_season "1920-1921" = some (1920, 1921) ∧
    parse_season "1920-21" = some (1920, 1921) := by
  refine ⟨?_, by decide, by decide, by decide⟩
  intro start c1 c2 h1 h2
  unfold parse_season
  have hnd : '-' ∉ [c1, c2] := by
    intro hm
    simp only [List.mem_cons, List.not_mem_nil, or_false] at hm
    rcases hm with rfl | rfl
    · exact absurd h1 (by decide)
    · exact absurd h2 (by decide)
  have hsplit : splitDash (String.mk (renderNat start ++ '-' :: [c1, c2])).data
      = [renderNat start, [c1, c2]] := by
    show splitDash (renderNat start ++ '-' :: [c1, c2]) = _
    rw [splitDash_append (renderNat start) [c1, c2] (renderNat_no_dash start),
      splitDash_no_dash [c1, c2] hnd]
  rw [hsplit]
  simp only [List.get?, Option.bind_eq_bind, Option.some_bind, pyIntChars_renderNat]
  have hpn : parseNatDigits [c1, c2] = some (digitVal c1 * 10 + digitVal c2) := by
    unfold parseNatDigits
    rw [if_pos (by simp [h1, h2])]
    simp only [List.foldl_cons, List.foldl_nil]
    ring_nf
  have hpy : pyIntChars [c1, c2]
      = some ((digitVal c1 * 10 + digitVal c2 : Nat) : Int) := by
    rw [pyIntChars, if_neg (isDigit_ne_dash h1), if_neg (isDigit_ne_plus h1), hpn]
    rfl
  simp only [List.length_cons, List.length_nil, hpy, Option.bind_eq_bind,
    Option.some_bind]
  rw [if_pos trivial]
  have hfd : ((start : Int)).fdiv 100 = ((start / 100 : Nat) : Int) := by
    have h := Int.ofNat_fdiv start 100
    simpa using h.symm
  rw [hfd]
  push_cast
  rfl

/-- Witness for `c7_two_digit_end` at the century-rollover input. -/
theorem c7_two_digit_end_witness :
    parse_season ⟨renderNat 1999 ++ '-' :: ['0', '0']⟩
      = some (((1999 : Nat) : Int),
          if ((1999 / 100 * 100 + (digitVal '0' * 10 + digitVal '0') : Nat) : Int)
              < ((1999 : Nat) : Int)
          then ((1999 / 100 * 100 + (digitVal '0' * 10 + digitVal '0') : Nat) : Int)
            + 100
          else ((1999 / 100 * 100 + (digitVal '0' * 10 + digitVal '0') : Nat) : Int)) :=
  c7_two_digit_end.1 1999 '0' '0' (by decide) (by decide)

end Sufc
